import Mathlib

/-!
Verification development for the background task scheduler of the
HeritageSquareFoundation chat backend.

The definitions below are a shallow embedding of the scheduler code:

* `backend/services/task_processor.py` — the `TaskProcessor` class
  (dispatcher poll loop, executor, retry handling, cancellation and the
  retention sweep over the `tasks` table), and
* `backend/api/tasks.py` — task creation and command parsing, together with
* `backend/models/task.py` — the task record and its enumerations.

The Supabase `tasks` table is modelled as a `List Task`; the query
combinators used by the code (`eq`-filters, `order` by priority descending
then created_at ascending, `limit`, row `update`, `delete ... in_ ... lt`)
are embedded as the corresponding pure list operations.  Timestamps are
natural numbers (the code stores ISO-8601 strings, whose lexicographic
order agrees with chronological order).  The dispatcher's in-memory
`active_tasks` dictionary is a list of `Exec` entries holding the row
snapshot passed to `_execute_task` plus a flag recording whether the
executor has performed its initial `RUNNING` write.  The interleaving of
the cooperatively scheduled coroutines is modelled by the step relations
`Step` (one dispatcher instance) and `Step2` (two dispatcher instances
sharing the store).
-/

namespace Scheduler

/-- Task states, from `TaskStatus` in `backend/models/task.py`. -/
inductive TaskStatus where
  | pending
  | running
  | completed
  | failed
  | cancelled
deriving DecidableEq, Repr

/-- Task kinds, from `TaskType` in `backend/models/task.py`. -/
inductive TaskType where
  | organize
  | search
  | cleanup
  | folder_operation
  | backup
  | analysis
deriving DecidableEq, Repr

/-- A row of the `tasks` table, fields as in `backend/models/task.py` and the
insert in `create_task` (`backend/api/tasks.py`). `result` is opaque to the
scheduler and is modelled by a numeric payload. -/
structure Task where
  id : Nat
  user_id : Nat
  type : TaskType
  status : TaskStatus
  progress : Nat
  result : Option Nat
  error_message : Option String
  retry_count : Nat
  max_retries : Nat
  priority : Int
  created_at : Nat
  started_at : Option Nat
  completed_at : Option Nat
  updated_at : Nat
deriving DecidableEq, Repr

/-- The optional fields of the `updates` dict merged into `update_data` by
`TaskProcessor._update_task_status`; a `some` value means the key is present
in the dict. -/
structure UpdateFields where
  progress : Option Nat := none
  result : Option Nat := none
  error_message : Option String := none
  retry_count : Option Nat := none
  started_at : Option Nat := none
  completed_at : Option Nat := none
deriving DecidableEq, Repr

/-- Effect of `_update_task_status` on one row: `status` and `updated_at` are
always written, the remaining keys only when present in the dict. -/
def applyUpdate (t : Task) (st : TaskStatus) (u : UpdateFields) (now : Nat) : Task :=
  { t with
    status := st
    updated_at := now
    progress := match u.progress with | some p => p | none => t.progress
    result := match u.result with | some r => some r | none => t.result
    error_message := match u.error_message with | some m => some m | none => t.error_message
    retry_count := match u.retry_count with | some n => n | none => t.retry_count
    started_at := match u.started_at with | some n => some n | none => t.started_at
    completed_at := match u.completed_at with | some n => some n | none => t.completed_at }

/-- Apply `f` to every row whose `id` matches, as the
`update(...).eq("id", task_id)` query does. -/
def mapTask (store : List Task) (id : Nat) (f : Task → Task) : List Task :=
  store.map fun t => if t.id = id then f t else t

/-- `TaskProcessor._update_task_status` over the whole table. -/
def updateTaskStatus (store : List Task) (id : Nat) (st : TaskStatus)
    (u : UpdateFields) (now : Nat) : List Task :=
  mapTask store id fun t => applyUpdate t st u now

/-- `TaskProcessor._update_task_progress`: writes `progress` and `updated_at`
only. -/
def updateTaskProgress (store : List Task) (id : Nat) (p : Nat) (now : Nat) : List Task :=
  mapTask store id fun t => { t with progress := p, updated_at := now }

/-- The selection order of `_process_pending_tasks`: `priority` descending,
then `created_at` ascending, as in the query
`.order("priority", desc=True).order("created_at", desc=False)`. -/
def taskOrder (a b : Task) : Prop :=
  b.priority < a.priority ∨ (a.priority = b.priority ∧ a.created_at ≤ b.created_at)

instance : DecidableRel taskOrder := fun a b => by
  unfold taskOrder
  infer_instance

instance : IsTotal Task taskOrder :=
  ⟨by intro a b; unfold taskOrder; omega⟩

instance : IsTrans Task taskOrder :=
  ⟨by intro a b c hab hbc; unfold taskOrder at *; omega⟩

/-- The `select` in `_process_pending_tasks`: PENDING rows, ordered by
priority descending then created_at ascending, limited. -/
def selectPendingTasks (store : List Task) (limit : Nat) : List Task :=
  ((store.filter fun t => decide (t.status = TaskStatus.pending)).insertionSort taskOrder).take limit

/-- One entry of the dispatcher's `active_tasks` dictionary: the row snapshot
handed to `_execute_task`, plus whether that executor has already performed
its initial write of `RUNNING`. -/
structure Exec where
  snap : Task
  started : Bool
deriving DecidableEq, Repr

/-- The membership test `task_id not in self.active_tasks`. -/
def activeHasId (active : List Exec) (id : Nat) : Bool :=
  active.any fun e => e.snap.id == id

/-- `self.max_concurrent_tasks = 5` in `TaskProcessor.__init__`. -/
def maxConcurrentTasks : Nat := 5

/-- The `for task_data in response.data` loop of `_process_pending_tasks`:
stop when the cap is reached, skip ids already in flight, otherwise start an
executor for the row. -/
def admitLoop (active : List Exec) : List Task → List Exec
  | [] => active
  | td :: rest =>
    if maxConcurrentTasks ≤ active.length then active
    else if activeHasId active td.id then admitLoop active rest
    else admitLoop (active ++ [⟨td, false⟩]) rest

/-- `_process_pending_tasks` acting on one dispatcher's in-flight table given
the shared store: early return when at capacity, otherwise select and admit. -/
def pollDispatch (store : List Task) (active : List Exec) : List Exec :=
  if maxConcurrentTasks ≤ active.length then active
  else admitLoop active (selectPendingTasks store (maxConcurrentTasks - active.length))

/-- Deleting the entry `del self.active_tasks[task_id]`. -/
def removeActive (active : List Exec) (id : Nat) : List Exec :=
  active.filter fun e => !(e.snap.id == id)

/-- Marking the executor for `id` as having performed its `RUNNING` write. -/
def setStarted (active : List Exec) (id : Nat) : List Exec :=
  active.map fun e => if e.snap.id = id then ⟨e.snap, true⟩ else e

/-- The update written on success in `_execute_task`. -/
def completeUpdate (r : Nat) (now : Nat) : UpdateFields :=
  { progress := some 100, result := some r, completed_at := some now }

/-- The informational message of the retry branch in `_execute_task`. -/
def retryMessage (attempt maxRetries : Nat) (msg : String) : String :=
  "Retry " ++ Nat.repr attempt ++ "/" ++ Nat.repr maxRetries ++ ": " ++ msg

/-- The update written by the retry branch of `_execute_task`. -/
def retryUpdate (retryCount maxRetries : Nat) (msg : String) : UpdateFields :=
  { retry_count := some (retryCount + 1)
    error_message := some (retryMessage (retryCount + 1) maxRetries msg) }

/-- The update written by the terminal-failure branch of `_execute_task`. -/
def failedUpdate (msg : String) (now : Nat) : UpdateFields :=
  { error_message := some msg, completed_at := some now }

/-- The update written by the `CancelledError` branch of `_execute_task` and
by `cancel_task`. -/
def cancelledUpdate (msg : String) (now : Nat) : UpdateFields :=
  { error_message := some msg, completed_at := some now }

/-- The store after the `except Exception` branch of `_execute_task` for the
executor holding the snapshot `snap`: requeue to PENDING with an incremented
`retry_count` while `retry_count < max_retries` (both read from the snapshot),
terminal FAILED otherwise. -/
def finishFailureStore (store : List Task) (snap : Task) (msg : String) (now : Nat) : List Task :=
  if snap.retry_count < snap.max_retries then
    updateTaskStatus store snap.id TaskStatus.pending
      (retryUpdate snap.retry_count snap.max_retries msg) now
  else
    updateTaskStatus store snap.id TaskStatus.failed (failedUpdate msg now) now

/-- Terminal statuses, the list
`[COMPLETED.value, FAILED.value, CANCELLED.value]` used by `cancel_task` and
`_cleanup_completed_tasks`. -/
def isTerminal (st : TaskStatus) : Bool :=
  match st with
  | TaskStatus.completed => true
  | TaskStatus.failed => true
  | TaskStatus.cancelled => true
  | _ => false

/-- The ownership filter of `cancel_task`:
`.eq("id", task_id).eq("user_id", user_id)`. -/
def cancelMatch (tid uid : Nat) (t : Task) : Bool :=
  t.id == tid && t.user_id == uid

/-- One dispatcher instance together with the shared store. -/
structure Sys where
  store : List Task
  active : List Exec
deriving DecidableEq, Repr

/-- `TaskProcessor.cancel_task`: look the task up by id and owner, refuse on a
terminal status, otherwise cancel the in-flight executor (if any) and write
CANCELLED. Returns the boolean result together with the successor state. -/
def cancelTask (s : Sys) (tid uid now : Nat) : Bool × Sys :=
  match s.store.filter (cancelMatch tid uid) with
  | [] => (false, s)
  | td :: _ =>
    if isTerminal td.status then (false, s)
    else
      (true,
        { store := updateTaskStatus s.store tid TaskStatus.cancelled
            (cancelledUpdate "Cancelled by user" now) now
          active := removeActive s.active tid })

/-- The retention cutoff `datetime.utcnow() - timedelta(days=7)` of
`_cleanup_completed_tasks`, in seconds. -/
def retentionCutoff (now : Nat) : Nat := now - 7 * 24 * 60 * 60

/-- Whether a row has a `completed_at` strictly before the cutoff (a row with
no `completed_at` never satisfies the `lt` filter). -/
def completedBefore (t : Task) (cutoff : Nat) : Bool :=
  match t.completed_at with
  | some c => decide (c < cutoff)
  | none => false

/-- A row survives `_cleanup_completed_tasks` unless its status is terminal
and its `completed_at` is older than the cutoff. -/
def sweepKeep (cutoff : Nat) (t : Task) : Bool :=
  !(isTerminal t.status && completedBefore t cutoff)

/-- `TaskProcessor._cleanup_completed_tasks`: delete rows whose status is in
the terminal list and whose `completed_at` is older than the 7-day cutoff. -/
def cleanupCompletedTasks (store : List Task) (now : Nat) : List Task :=
  store.filter (sweepKeep (retentionCutoff now))

/-- One scheduler step of the single-instance system. Each constructor is one
atomic section of the cooperatively scheduled code (the synchronous stretches
between `await` points):

* `create` — the row insert of `create_task` (`backend/api/tasks.py`): a fresh
  id, PENDING, `progress = 0`, `retry_count = 0`, no result, no error, no
  `started_at`/`completed_at`;
* `poll` — one run of `_process_pending_tasks`;
* `startRun` — the initial `RUNNING`/`started_at` write of `_execute_task`;
* `progressUpd` — a handler progress callback via `_update_task_progress`;
* `finishSuccess` — the COMPLETED write of `_execute_task` and the `finally`
  removal from `active_tasks`;
* `finishFailure` — the `except Exception` branch of `_execute_task` (retry or
  terminal FAILED, decided on the snapshot) and the `finally` removal;
* `cancel` — one call of `cancel_task`, covering also the `CancelledError`
  write of the aborted executor (same fields, same status);
* `sweep` — one run of `_cleanup_completed_tasks`. -/
inductive Step : Sys → Sys → Prop where
  | create (s : Sys) (t : Task)
      (hst : t.status = TaskStatus.pending)
      (hrc : t.retry_count = 0)
      (hpr : t.progress = 0)
      (hres : t.result = none)
      (herr : t.error_message = none)
      (hsa : t.started_at = none)
      (hca : t.completed_at = none)
      (hfresh : ∀ u ∈ s.store, u.id ≠ t.id) :
      Step s { s with store := s.store ++ [t] }
  | poll (s : Sys) :
      Step s { s with active := pollDispatch s.store s.active }
  | startRun (s : Sys) (e : Exec) (now : Nat)
      (he : e ∈ s.active) (hs : e.started = false) :
      Step s { store := updateTaskStatus s.store e.snap.id TaskStatus.running
                 { started_at := some now } now
               active := setStarted s.active e.snap.id }
  | progressUpd (s : Sys) (e : Exec) (p : Nat) (now : Nat)
      (he : e ∈ s.active) (hs : e.started = true) :
      Step s { s with store := updateTaskProgress s.store e.snap.id p now }
  | finishSuccess (s : Sys) (e : Exec) (r : Nat) (now : Nat)
      (he : e ∈ s.active) (hs : e.started = true) :
      Step s { store := updateTaskStatus s.store e.snap.id TaskStatus.completed
                 (completeUpdate r now) now
               active := removeActive s.active e.snap.id }
  | finishFailure (s : Sys) (e : Exec) (msg : String) (now : Nat)
      (he : e ∈ s.active) (hs : e.started = true) :
      Step s { store := finishFailureStore s.store e.snap msg now
               active := removeActive s.active e.snap.id }
  | cancel (s : Sys) (tid uid now : Nat) :
      Step s (cancelTask s tid uid now).2
  | sweep (s : Sys) (now : Nat) :
      Step s { s with store := cleanupCompletedTasks s.store now }

/-- The scheduler starts with an empty table and no in-flight executors. -/
def initSys : Sys := { store := [], active := [] }

/-- States reachable by the single-instance scheduler. -/
inductive Reachable : Sys → Prop where
  | init : Reachable initSys
  | step {s s2 : Sys} : Reachable s → Step s s2 → Reachable s2

/-- Two dispatcher instances (two deployments of `TaskProcessor`) sharing one
`tasks` table, each with its own in-memory `active_tasks` dictionary. -/
structure Sys2 where
  store : List Task
  d1 : List Exec
  d2 : List Exec
deriving DecidableEq, Repr

/-- Steps of the two-instance system: task creation, either instance running
`_process_pending_tasks` against the shared store, and either instance's
executor performing its initial `RUNNING` write. -/
inductive Step2 : Sys2 → Sys2 → Prop where
  | create (s : Sys2) (t : Task)
      (hst : t.status = TaskStatus.pending)
      (hfresh : ∀ u ∈ s.store, u.id ≠ t.id) :
      Step2 s { s with store := s.store ++ [t] }
  | poll1 (s : Sys2) :
      Step2 s { s with d1 := pollDispatch s.store s.d1 }
  | poll2 (s : Sys2) :
      Step2 s { s with d2 := pollDispatch s.store s.d2 }
  | startRun1 (s : Sys2) (e : Exec) (now : Nat)
      (he : e ∈ s.d1) (hs : e.started = false) :
      Step2 s { store := updateTaskStatus s.store e.snap.id TaskStatus.running
                  { started_at := some now } now
                d1 := setStarted s.d1 e.snap.id
                d2 := s.d2 }
  | startRun2 (s : Sys2) (e : Exec) (now : Nat)
      (he : e ∈ s.d2) (hs : e.started = false) :
      Step2 s { store := updateTaskStatus s.store e.snap.id TaskStatus.running
                  { started_at := some now } now
                d1 := s.d1
                d2 := setStarted s.d2 e.snap.id }

/-- The two-instance system starts with an empty table and idle dispatchers. -/
def initSys2 : Sys2 := { store := [], d1 := [], d2 := [] }

/-- States reachable by two scheduler instances over a shared store. -/
inductive Reachable2 : Sys2 → Prop where
  | init : Reachable2 initSys2
  | step {s s2 : Sys2} : Reachable2 s → Step2 s s2 → Reachable2 s2

/-- The characters of `command` after `command.strip().lower()` in
`_parse_command_for_task` (`backend/api/tasks.py`). -/
def lowerTrim (s : String) : List Char :=
  (((s.data.dropWhile Char.isWhitespace).reverse.dropWhile Char.isWhitespace).reverse).map
    Char.toLower

/-- The test `command.startswith(p)`. -/
def hasPrefixStr (l : List Char) (p : String) : Bool :=
  p.data.isPrefixOf l

/-- The test `pat in command` (substring containment). -/
def hasSubstr (pat : List Char) : List Char → Bool
  | [] => pat.isEmpty
  | c :: tl => pat.isPrefixOf (c :: tl) || hasSubstr pat tl

/-- The branch structure of `_parse_command_for_task` over the normalized
characters: prefix tests for the four slash commands, then the substring
tests for backup and analyze/analysis, defaulting to ANALYSIS. -/
def parseTypeOfChars (c : List Char) : TaskType :=
  if hasPrefixStr c "/organize" then TaskType.organize
  else if hasPrefixStr c "/search" then TaskType.search
  else if hasPrefixStr c "/cleanup" then TaskType.cleanup
  else if hasPrefixStr c "/folder" then TaskType.folder_operation
  else if hasSubstr "backup".data c then TaskType.backup
  else if hasSubstr "analyze".data c || hasSubstr "analysis".data c then TaskType.analysis
  else TaskType.analysis

/-- The task type computed by `_parse_command_for_task`
(`backend/api/tasks.py`): normalize with `strip().lower()`, then branch. -/
def parseCommandTaskType (command : String) : TaskType :=
  parseTypeOfChars (lowerTrim command)

/-- The request body `TaskCreate` of `backend/models/task.py` (the fields
relevant to the stored type). -/
structure TaskCreate where
  type : TaskType
  command : String
  priority : Nat
  max_retries : Nat
deriving DecidableEq, Repr

/-- The `type` value stored by `create_task` in `backend/api/tasks.py`: the
insert uses `task_type.value` from `_parse_command_for_task(task.command, ...)`
and never reads `task.type`. -/
def createTaskStoredType (req : TaskCreate) : TaskType :=
  parseCommandTaskType req.command

/-- The type-derivation rule as the claim words it: the four slash-command
prefixes, then the substrings backup and analyze, and ANALYSIS for any other
command. Stated separately from `parseCommandTaskType` (which also tests the
substring analysis before its default branch) to compare the two. -/
def claimTypeOfChars (c : List Char) : TaskType :=
  if hasPrefixStr c "/organize" then TaskType.organize
  else if hasPrefixStr c "/search" then TaskType.search
  else if hasPrefixStr c "/cleanup" then TaskType.cleanup
  else if hasPrefixStr c "/folder" then TaskType.folder_operation
  else if hasSubstr "backup".data c then TaskType.backup
  else if hasSubstr "analyze".data c then TaskType.analysis
  else TaskType.analysis

/-- The claim's rule applied to a normalized command string. -/
def claimStoredType (command : String) : TaskType :=
  claimTypeOfChars (lowerTrim command)

/-- The ids held by a dispatcher's in-flight table. -/
def activeIds (active : List Exec) : List Nat :=
  active.map fun e => e.snap.id

/-- A sample freshly created row, as inserted by `create_task`. -/
def taskA : Task :=
  { id := 1, user_id := 10, type := TaskType.organize, status := TaskStatus.pending,
    progress := 0, result := none, error_message := none, retry_count := 0, max_retries := 3,
    priority := 5, created_at := 100, started_at := none, completed_at := none, updated_at := 100 }

/-- The in-flight entry for `taskA` before its executor's first write. -/
def exA : Exec := ⟨taskA, false⟩

/-- The in-flight entry for `taskA` after its executor wrote RUNNING. -/
def exA2 : Exec := ⟨taskA, true⟩

/-- Trace: `taskA` created. -/
def sysA1 : Sys := { store := [taskA], active := [] }

/-- Trace: one dispatcher poll claims `taskA`. -/
def sysA2 : Sys := { sysA1 with active := pollDispatch sysA1.store sysA1.active }

/-- Trace: the executor for `taskA` writes RUNNING. -/
def sysA3 : Sys :=
  { store := updateTaskStatus sysA2.store exA.snap.id TaskStatus.running
      { started_at := some 200 } 200
    active := setStarted sysA2.active exA.snap.id }

/-- Trace: the handler for `taskA` raises; retry budget remains. -/
def sysA4 : Sys :=
  { store := finishFailureStore sysA3.store exA2.snap "Transient IO error" 300
    active := removeActive sysA3.active exA2.snap.id }

/-- The requeued row produced by the trace ending in `sysA4`. -/
def taskAretry : Task :=
  applyUpdate (applyUpdate taskA TaskStatus.running { started_at := some 200 } 200)
    TaskStatus.pending (retryUpdate 0 3 "Transient IO error") 300

/-- Two-instance trace: `taskA` created in the shared store. -/
def sysB1 : Sys2 := { store := [taskA], d1 := [], d2 := [] }

/-- Two-instance trace: instance 1 polls and claims `taskA`. -/
def sysB2 : Sys2 := { sysB1 with d1 := pollDispatch sysB1.store sysB1.d1 }

/-- Two-instance trace: instance 2 polls before instance 1's executor has
written RUNNING, and claims `taskA` as well. -/
def sysB3 : Sys2 := { sysB2 with d2 := pollDispatch sysB2.store sysB2.d2 }

/-- Two-instance trace: instance 1's executor writes RUNNING. -/
def sysB4 : Sys2 :=
  { store := updateTaskStatus sysB3.store exA.snap.id TaskStatus.running
      { started_at := some 200 } 200
    d1 := setStarted sysB3.d1 exA.snap.id
    d2 := sysB3.d2 }

/-- Two-instance trace: instance 2's executor also writes RUNNING. -/
def sysB5 : Sys2 :=
  { store := updateTaskStatus sysB4.store exA.snap.id TaskStatus.running
      { started_at := some 210 } 210
    d1 := sysB4.d1
    d2 := setStarted sysB4.d2 exA.snap.id }

/-- A task created with `max_retries = 0` (allowed by `TaskCreate`, `ge=0`). -/
def taskC : Task :=
  { id := 3, user_id := 11, type := TaskType.backup, status := TaskStatus.pending,
    progress := 0, result := none, error_message := none, retry_count := 0, max_retries := 0,
    priority := 7, created_at := 120, started_at := none, completed_at := none, updated_at := 120 }

/-- The in-flight entry for `taskC`. -/
def exC : Exec := ⟨taskC, false⟩

/-- Trace: `taskC` created. -/
def sysC1 : Sys := { store := [taskC], active := [] }

/-- Trace: a poll claims `taskC`. -/
def sysC2 : Sys := { sysC1 with active := pollDispatch sysC1.store sysC1.active }

/-- The row `taskC` after its executor fails with no retry budget. -/
def taskCfailed : Task :=
  applyUpdate taskC TaskStatus.failed (failedUpdate "Disk failure" 300) 300

/-- A RUNNING row mid-execution with nonzero progress. -/
def taskBrun : Task :=
  { id := 2, user_id := 10, type := TaskType.search, status := TaskStatus.running,
    progress := 60, result := none, error_message := none, retry_count := 0, max_retries := 3,
    priority := 5, created_at := 100, started_at := some 200, completed_at := none,
    updated_at := 250 }

/-- A store holding only the running row `taskBrun`. -/
def sysD : Sys := { store := [taskBrun], active := [] }

/-- The row `taskBrun` after a user cancellation at time 400. -/
def taskBcancelled : Task :=
  applyUpdate taskBrun TaskStatus.cancelled (cancelledUpdate "Cancelled by user" 400) 400

/-- A high-priority pending row. -/
def taskHi : Task := { taskA with id := 4, priority := 9, created_at := 150 }

/-- A low-priority pending row, older than `taskHi`. -/
def taskLo : Task := { taskA with id := 5, priority := 2, created_at := 50 }

/-- A terminal row whose `completed_at` is far beyond the retention window. -/
def taskOld : Task :=
  { taskA with
    id := 6, status := TaskStatus.completed, result := some 1,
    progress := 100, completed_at := some 100 }

/-- The inductive invariant of the single-dispatcher system: the in-flight
table is bounded and duplicate-free, stored ids are unique, retry budgets are
respected, every in-flight executor snapshot agrees with its stored row
(PENDING before the initial write, RUNNING after), results appear exactly on
COMPLETED rows, and FAILED/CANCELLED rows carry an error message. -/
structure Inv (s : Sys) : Prop where
  activeBound : s.active.length ≤ maxConcurrentTasks
  activeNodup : (activeIds s.active).Nodup
  storeNodup : (s.store.map Task.id).Nodup
  retryBound : ∀ t ∈ s.store, t.retry_count ≤ t.max_retries
  execStore : ∀ e ∈ s.active, ∃ t, t ∈ s.store ∧ t.id = e.snap.id ∧
      t.retry_count = e.snap.retry_count ∧ t.max_retries = e.snap.max_retries ∧
      t.status = (if e.started then TaskStatus.running else TaskStatus.pending)
  resultIff : ∀ t ∈ s.store, (t.result.isSome ↔ t.status = TaskStatus.completed)
  errorSet : ∀ t ∈ s.store, (t.status = TaskStatus.failed ∨ t.status = TaskStatus.cancelled) →
      t.error_message.isSome

theorem applyUpdate_id (t : Task) (st : TaskStatus) (u : UpdateFields) (now : Nat) :
    (applyUpdate t st u now).id = t.id := rfl

theorem mem_mapTask_elim {store : List Task} {id : Nat} {f : Task → Task} {t2 : Task}
    (h : t2 ∈ mapTask store id f) :
    (∃ t, t ∈ store ∧ t.id = id ∧ t2 = f t) ∨ (t2 ∈ store ∧ t2.id ≠ id) := by
  rcases List.mem_map.mp h with ⟨t, ht, heq⟩
  by_cases hid : t.id = id
  · exact Or.inl ⟨t, ht, hid, by simpa [hid] using heq.symm⟩
  · refine Or.inr ?_
    simp only [hid, if_false] at heq
    exact heq ▸ ⟨ht, hid⟩

theorem mem_mapTask_of_ne {store : List Task} {id : Nat} {f : Task → Task} {t : Task}
    (ht : t ∈ store) (hne : t.id ≠ id) : t ∈ mapTask store id f := by
  refine List.mem_map.mpr ⟨t, ht, ?_⟩
  simp [hne]

theorem mem_mapTask_of_eq {store : List Task} {id : Nat} {f : Task → Task} {t : Task}
    (ht : t ∈ store) (heq : t.id = id) : f t ∈ mapTask store id f := by
  refine List.mem_map.mpr ⟨t, ht, ?_⟩
  simp [heq]

theorem mapTask_map_id {store : List Task} {id : Nat} {f : Task → Task}
    (hf : ∀ t, (f t).id = t.id) :
    (mapTask store id f).map Task.id = store.map Task.id := by
  unfold mapTask
  rw [List.map_map]
  refine List.map_congr_left ?_
  intro t _
  by_cases hid : t.id = id <;> simp [hid, hf]

theorem mapTask_nodup {store : List Task} {id : Nat} {f : Task → Task}
    (hf : ∀ t, (f t).id = t.id) (h : (store.map Task.id).Nodup) :
    ((mapTask store id f).map Task.id).Nodup := by
  rw [mapTask_map_id hf]
  exact h

theorem store_id_unique {store : List Task} (h : (store.map Task.id).Nodup)
    {t u : Task} (ht : t ∈ store) (hu : u ∈ store) (hid : t.id = u.id) : t = u :=
  List.inj_on_of_nodup_map h ht hu hid

theorem exec_id_unique {active : List Exec} (h : (activeIds active).Nodup)
    {e f : Exec} (he : e ∈ active) (hf : f ∈ active) (hid : e.snap.id = f.snap.id) : e = f :=
  List.inj_on_of_nodup_map h he hf hid

theorem activeHasId_false {active : List Exec} {i : Nat}
    (h : activeHasId active i = false) : i ∉ activeIds active := by
  intro hmem
  rcases List.mem_map.mp hmem with ⟨e, he, heq⟩
  have h2 : activeHasId active i = true := by
    unfold activeHasId
    exact List.any_eq_true.mpr ⟨e, he, beq_iff_eq.mpr heq⟩
  rw [h] at h2
  exact Bool.false_ne_true h2

theorem admitLoop_length {active : List Exec} {l : List Task}
    (h : active.length ≤ maxConcurrentTasks) :
    (admitLoop active l).length ≤ maxConcurrentTasks := by
  induction l generalizing active with
  | nil => simpa [admitLoop] using h
  | cons td rest ih =>
    rw [admitLoop]
    by_cases hfull : maxConcurrentTasks ≤ active.length
    · simpa [hfull] using h
    · by_cases hid : activeHasId active td.id
      · simpa [hfull, hid] using ih h
      · have hlen : (active ++ [(⟨td, false⟩ : Exec)]).length ≤ maxConcurrentTasks := by
          simp only [List.length_append, List.length_singleton]
          omega
        simpa [hfull, hid] using ih hlen

theorem admitLoop_nodup {active : List Exec} {l : List Task}
    (h : (activeIds active).Nodup) :
    (activeIds (admitLoop active l)).Nodup := by
  induction l generalizing active with
  | nil => simpa [admitLoop] using h
  | cons td rest ih =>
    rw [admitLoop]
    by_cases hfull : maxConcurrentTasks ≤ active.length
    · simpa [hfull] using h
    · by_cases hid : activeHasId active td.id
      · simpa [hfull, hid] using ih h
      · have hnotin : td.id ∉ activeIds active :=
          activeHasId_false (by simpa using hid)
        have hnd : (activeIds (active ++ [(⟨td, false⟩ : Exec)])).Nodup := by
          unfold activeIds at *
          rw [List.map_append]
          refine List.Nodup.append h (List.nodup_singleton _) ?_
          intro x hx hx2
          simp only [List.map_cons, List.map_nil, List.mem_singleton] at hx2
          exact hnotin (hx2 ▸ hx)
        simpa [hfull, hid] using ih hnd

theorem mem_admitLoop {active : List Exec} {l : List Task} {e : Exec}
    (h : e ∈ admitLoop active l) :
    e ∈ active ∨ ∃ td, td ∈ l ∧ e = (⟨td, false⟩ : Exec) := by
  induction l generalizing active with
  | nil => exact Or.inl (by simpa [admitLoop] using h)
  | cons td rest ih =>
    rw [admitLoop] at h
    by_cases hfull : maxConcurrentTasks ≤ active.length
    · exact Or.inl (by simpa [hfull] using h)
    · by_cases hid : activeHasId active td.id
      · simp only [hfull, if_false, hid, if_true] at h
        rcases ih h with h1 | ⟨u, hu, he⟩
        · exact Or.inl h1
        · exact Or.inr ⟨u, List.mem_cons_of_mem _ hu, he⟩
      · simp only [hfull, if_false, hid, if_true] at h
        rcases ih h with h1 | ⟨u, hu, he⟩
        · rcases List.mem_append.mp h1 with h2 | h2
          · exact Or.inl h2
          · exact Or.inr ⟨td, List.mem_cons_self _ _, by simpa using h2⟩
        · exact Or.inr ⟨u, List.mem_cons_of_mem _ hu, he⟩

theorem mem_selectPendingTasks {store : List Task} {limit : Nat} {t : Task}
    (h : t ∈ selectPendingTasks store limit) :
    t ∈ store ∧ t.status = TaskStatus.pending := by
  unfold selectPendingTasks at h
  have h2 := (List.take_sublist _ _).subset h
  have h3 := (List.mem_insertionSort taskOrder).mp h2
  have h4 := List.mem_filter.mp h3
  exact ⟨h4.1, of_decide_eq_true h4.2⟩

theorem setStarted_ids (active : List Exec) (id : Nat) :
    activeIds (setStarted active id) = activeIds active := by
  unfold activeIds setStarted
  rw [List.map_map]
  refine List.map_congr_left ?_
  intro e _
  by_cases hid : e.snap.id = id <;> simp [hid]

theorem setStarted_length (active : List Exec) (id : Nat) :
    (setStarted active id).length = active.length := by
  simp [setStarted]

theorem mem_setStarted_elim {active : List Exec} {id : Nat} {e2 : Exec}
    (h : e2 ∈ setStarted active id) :
    (∃ e, e ∈ active ∧ e.snap.id = id ∧ e2 = ⟨e.snap, true⟩) ∨ (e2 ∈ active ∧ e2.snap.id ≠ id) := by
  rcases List.mem_map.mp h with ⟨e, he, heq⟩
  by_cases hid : e.snap.id = id
  · exact Or.inl ⟨e, he, hid, by simpa [hid] using heq.symm⟩
  · refine Or.inr ?_
    simp only [hid, if_false] at heq
    exact heq ▸ ⟨he, hid⟩

theorem removeActive_sublist (active : List Exec) (id : Nat) :
    (removeActive active id).Sublist active :=
  List.filter_sublist _

theorem mem_removeActive {active : List Exec} {id : Nat} {e : Exec}
    (h : e ∈ removeActive active id) : e ∈ active ∧ e.snap.id ≠ id := by
  have h2 := List.mem_filter.mp h
  refine ⟨h2.1, ?_⟩
  intro hid
  have := h2.2
  simp [hid] at this

theorem mem_removeActive_of_ne {active : List Exec} {id : Nat} {e : Exec}
    (he : e ∈ active) (hne : e.snap.id ≠ id) : e ∈ removeActive active id := by
  refine List.mem_filter.mpr ⟨he, ?_⟩
  simp [hne]

theorem forall_mem_mapTask {P : Task → Prop} {store : List Task} {id : Nat} {f : Task → Task}
    (hall : ∀ t ∈ store, P t)
    (hupd : ∀ t ∈ store, t.id = id → P (f t)) :
    ∀ t ∈ mapTask store id f, P t := by
  intro t ht
  rcases mem_mapTask_elim ht with ⟨u, hu, huid, hteq⟩ | ⟨ht2, hne⟩
  · exact hteq ▸ hupd u hu huid
  · exact hall t ht2

theorem inv_create {s : Sys} {t : Task} (inv : Inv s)
    (hst : t.status = TaskStatus.pending) (hrc : t.retry_count = 0)
    (hres : t.result = none) (herr : t.error_message = none)
    (hfresh : ∀ u ∈ s.store, u.id ≠ t.id) :
    Inv { s with store := s.store ++ [t] } := by
  constructor
  · exact inv.activeBound
  · exact inv.activeNodup
  · simp only [List.map_append, List.map_cons, List.map_nil]
    refine List.Nodup.append inv.storeNodup (List.nodup_singleton _) ?_
    intro x hx hx2
    simp only [List.mem_singleton] at hx2
    rcases List.mem_map.mp hx with ⟨u, hu, hux⟩
    exact hfresh u hu (by rw [hux, hx2])
  · intro u hu
    rcases List.mem_append.mp hu with h | h
    · exact inv.retryBound u h
    · simp only [List.mem_singleton] at h
      subst h
      omega
  · intro e he
    rcases inv.execStore e he with ⟨u, hu, rest⟩
    exact ⟨u, List.mem_append_left _ hu, rest⟩
  · intro u hu
    rcases List.mem_append.mp hu with h | h
    · exact inv.resultIff u h
    · simp only [List.mem_singleton] at h
      subst h
      simp [hres, hst]
  · intro u hu hterm
    rcases List.mem_append.mp hu with h | h
    · exact inv.errorSet u h hterm
    · simp only [List.mem_singleton] at h
      subst h
      rw [hst] at hterm
      rcases hterm with h2 | h2 <;> exact absurd h2 (by decide)

theorem inv_poll {s : Sys} (inv : Inv s) :
    Inv { s with active := pollDispatch s.store s.active } := by
  unfold pollDispatch
  by_cases hfull : maxConcurrentTasks ≤ s.active.length
  · simp only [hfull, if_true]
    exact inv
  · simp only [hfull, if_false]
    constructor
    · exact admitLoop_length (Nat.le_of_lt (Nat.lt_of_not_le hfull))
    · exact admitLoop_nodup inv.activeNodup
    · exact inv.storeNodup
    · exact inv.retryBound
    · intro e he
      rcases mem_admitLoop he with h | ⟨td, htd, he2⟩
      · exact inv.execStore e h
      · rcases mem_selectPendingTasks htd with ⟨hmem, hpend⟩
        subst he2
        exact ⟨td, hmem, rfl, rfl, rfl, by simp [hpend]⟩
    · exact inv.resultIff
    · exact inv.errorSet

theorem inv_startRun {s : Sys} {e : Exec} {now : Nat} (inv : Inv s)
    (he : e ∈ s.active) (hs : e.started = false) :
    Inv { store := updateTaskStatus s.store e.snap.id TaskStatus.running
            { started_at := some now } now
          active := setStarted s.active e.snap.id } := by
  obtain ⟨t0, ht0mem, ht0id, ht0rc, ht0mr, ht0st⟩ := inv.execStore e he
  simp only [hs, Bool.false_eq_true, if_false] at ht0st
  constructor
  · simpa [setStarted_length] using inv.activeBound
  · simpa [setStarted_ids] using inv.activeNodup
  · exact mapTask_nodup (fun t => rfl) inv.storeNodup
  · refine forall_mem_mapTask inv.retryBound ?_
    intro t ht _
    have := inv.retryBound t ht
    simpa [applyUpdate] using this
  · intro e2 he2
    rcases mem_setStarted_elim he2 with ⟨e3, he3, he3id, he2eq⟩ | ⟨he2mem, hne⟩
    · have he3e : e3 = e := exec_id_unique inv.activeNodup he3 he he3id
      subst he3e
      subst he2eq
      refine ⟨applyUpdate t0 TaskStatus.running { started_at := some now } now,
        mem_mapTask_of_eq ht0mem ht0id, ?_, ?_, ?_, ?_⟩
      · simpa [applyUpdate] using ht0id
      · simpa [applyUpdate] using ht0rc
      · simpa [applyUpdate] using ht0mr
      · simp [applyUpdate]
    · obtain ⟨u, hu, huid, hur, hum, hus⟩ := inv.execStore e2 he2mem
      exact ⟨u, mem_mapTask_of_ne hu (by rw [huid]; exact hne), huid, hur, hum, hus⟩
  · refine forall_mem_mapTask inv.resultIff ?_
    intro t ht hid
    have ht0 : t = t0 := store_id_unique inv.storeNodup ht ht0mem (by rw [hid, ht0id])
    subst ht0
    have := inv.resultIff t ht
    rw [ht0st] at this
    simp only [applyUpdate]
    simpa using this
  · refine forall_mem_mapTask inv.errorSet ?_
    intro t ht _ hterm
    simp [applyUpdate] at hterm

theorem inv_progress {s : Sys} {e : Exec} {p now : Nat} (inv : Inv s)
    (_he : e ∈ s.active) (_hs : e.started = true) :
    Inv { s with store := updateTaskProgress s.store e.snap.id p now } := by
  constructor
  · exact inv.activeBound
  · exact inv.activeNodup
  · exact mapTask_nodup (fun t => rfl) inv.storeNodup
  · refine forall_mem_mapTask inv.retryBound ?_
    intro t ht _
    exact inv.retryBound t ht
  · intro e2 he2
    obtain ⟨u, hu, huid, hur, hum, hus⟩ := inv.execStore e2 he2
    by_cases hid : u.id = e.snap.id
    · refine ⟨{ u with progress := p, updated_at := now }, mem_mapTask_of_eq hu hid,
        huid, hur, hum, hus⟩
    · exact ⟨u, mem_mapTask_of_ne hu hid, huid, hur, hum, hus⟩
  · refine forall_mem_mapTask inv.resultIff ?_
    intro t ht _
    exact inv.resultIff t ht
  · refine forall_mem_mapTask inv.errorSet ?_
    intro t ht _
    exact inv.errorSet t ht

theorem inv_finishSuccess {s : Sys} {e : Exec} {r now : Nat} (inv : Inv s)
    (_he : e ∈ s.active) (_hs : e.started = true) :
    Inv { store := updateTaskStatus s.store e.snap.id TaskStatus.completed
            (completeUpdate r now) now
          active := removeActive s.active e.snap.id } := by
  constructor
  · exact Nat.le_trans (List.Sublist.length_le (removeActive_sublist _ _)) inv.activeBound
  · exact List.Nodup.sublist (List.Sublist.map _ (removeActive_sublist _ _)) inv.activeNodup
  · exact mapTask_nodup (fun t => rfl) inv.storeNodup
  · refine forall_mem_mapTask inv.retryBound ?_
    intro t ht _
    have := inv.retryBound t ht
    simpa [applyUpdate, completeUpdate] using this
  · intro e2 he2
    obtain ⟨he2mem, hne⟩ := mem_removeActive he2
    obtain ⟨u, hu, huid, hur, hum, hus⟩ := inv.execStore e2 he2mem
    exact ⟨u, mem_mapTask_of_ne hu (by rw [huid]; exact hne), huid, hur, hum, hus⟩
  · refine forall_mem_mapTask inv.resultIff ?_
    intro t ht _
    simp [applyUpdate, completeUpdate]
  · refine forall_mem_mapTask inv.errorSet ?_
    intro t ht _ hterm
    simp [applyUpdate, completeUpdate] at hterm

theorem inv_finishFailure {s : Sys} {e : Exec} {msg : String} {now : Nat} (inv : Inv s)
    (he : e ∈ s.active) (hs : e.started = true) :
    Inv { store := finishFailureStore s.store e.snap msg now
          active := removeActive s.active e.snap.id } := by
  obtain ⟨t0, ht0mem, ht0id, ht0rc, ht0mr, ht0st⟩ := inv.execStore e he
  simp only [hs, if_true] at ht0st
  have hresFalse : t0.result.isSome = false := by
    rcases Bool.eq_false_or_eq_true t0.result.isSome with hb | hb
    · have := (inv.resultIff t0 ht0mem).mp (by rw [hb])
      rw [ht0st] at this
      exact absurd this (by decide)
    · exact hb
  unfold finishFailureStore
  by_cases hret : e.snap.retry_count < e.snap.max_retries
  · simp only [hret, if_true]
    constructor
    · exact Nat.le_trans (List.Sublist.length_le (removeActive_sublist _ _)) inv.activeBound
    · exact List.Nodup.sublist (List.Sublist.map _ (removeActive_sublist _ _)) inv.activeNodup
    · exact mapTask_nodup (fun t => rfl) inv.storeNodup
    · refine forall_mem_mapTask inv.retryBound ?_
      intro t ht hid
      have ht0 : t = t0 := store_id_unique inv.storeNodup ht ht0mem (by rw [hid, ht0id])
      subst ht0
      have hmr : t.max_retries = e.snap.max_retries := ht0mr
      simp only [applyUpdate, retryUpdate]
      rw [hmr]
      omega
    · intro e2 he2
      obtain ⟨he2mem, hne⟩ := mem_removeActive he2
      obtain ⟨u, hu, huid, hur, hum, hus⟩ := inv.execStore e2 he2mem
      exact ⟨u, mem_mapTask_of_ne hu (by rw [huid]; exact hne), huid, hur, hum, hus⟩
    · refine forall_mem_mapTask inv.resultIff ?_
      intro t ht hid
      have ht0 : t = t0 := store_id_unique inv.storeNodup ht ht0mem (by rw [hid, ht0id])
      subst ht0
      simp [applyUpdate, retryUpdate, hresFalse]
    · refine forall_mem_mapTask inv.errorSet ?_
      intro t ht _ hterm
      simp [applyUpdate, retryUpdate] at hterm
  · simp only [hret, if_false]
    constructor
    · exact Nat.le_trans (List.Sublist.length_le (removeActive_sublist _ _)) inv.activeBound
    · exact List.Nodup.sublist (List.Sublist.map _ (removeActive_sublist _ _)) inv.activeNodup
    · exact mapTask_nodup (fun t => rfl) inv.storeNodup
    · refine forall_mem_mapTask inv.retryBound ?_
      intro t ht _
      have := inv.retryBound t ht
      simpa [applyUpdate, failedUpdate] using this
    · intro e2 he2
      obtain ⟨he2mem, hne⟩ := mem_removeActive he2
      obtain ⟨u, hu, huid, hur, hum, hus⟩ := inv.execStore e2 he2mem
      exact ⟨u, mem_mapTask_of_ne hu (by rw [huid]; exact hne), huid, hur, hum, hus⟩
    · refine forall_mem_mapTask inv.resultIff ?_
      intro t ht hid
      have ht0 : t = t0 := store_id_unique inv.storeNodup ht ht0mem (by rw [hid, ht0id])
      subst ht0
      simp [applyUpdate, failedUpdate, hresFalse]
    · refine forall_mem_mapTask inv.errorSet ?_
      intro t ht _ _
      simp [applyUpdate, failedUpdate]

theorem cancelTask_eq_of_none {s : Sys} {tid uid now : Nat}
    (h : s.store.filter (cancelMatch tid uid) = []) :
    cancelTask s tid uid now = (false, s) := by
  unfold cancelTask
  rw [h]

theorem cancelTask_eq_of_terminal {s : Sys} {tid uid now : Nat} {td : Task} {rest : List Task}
    (h : s.store.filter (cancelMatch tid uid) = td :: rest)
    (ht : isTerminal td.status = true) :
    cancelTask s tid uid now = (false, s) := by
  unfold cancelTask
  rw [h]
  simp [ht]

theorem cancelTask_eq_of_live {s : Sys} {tid uid now : Nat} {td : Task} {rest : List Task}
    (h : s.store.filter (cancelMatch tid uid) = td :: rest)
    (ht : isTerminal td.status = false) :
    cancelTask s tid uid now =
      (true, { store := updateTaskStatus s.store tid TaskStatus.cancelled
                 (cancelledUpdate "Cancelled by user" now) now
               active := removeActive s.active tid }) := by
  unfold cancelTask
  rw [h]
  simp [ht]

theorem inv_cancel {s : Sys} (inv : Inv s) (tid uid now : Nat) :
    Inv (cancelTask s tid uid now).2 := by
  rcases hfil : s.store.filter (cancelMatch tid uid) with _ | ⟨td, rest⟩
  · rw [cancelTask_eq_of_none hfil]
    exact inv
  · rcases Bool.eq_false_or_eq_true (isTerminal td.status) with hterm | hterm
    · rw [cancelTask_eq_of_terminal hfil hterm]
      exact inv
    · rw [cancelTask_eq_of_live hfil hterm]
      have htdfil : td ∈ s.store.filter (cancelMatch tid uid) := by
        rw [hfil]
        exact List.mem_cons_self td rest
      have htdmem : td ∈ s.store := List.mem_of_mem_filter htdfil
      have htdmatch := List.of_mem_filter htdfil
      have htdid : td.id = tid := by
        simp only [cancelMatch, Bool.and_eq_true, beq_iff_eq] at htdmatch
        exact htdmatch.1
      have hnotc : td.status ≠ TaskStatus.completed := by
        intro hx
        rw [hx] at hterm
        simp [isTerminal] at hterm
      have hresFalse : td.result.isSome = false := by
        rcases Bool.eq_false_or_eq_true td.result.isSome with hb | hb
        · exact absurd ((inv.resultIff td htdmem).mp (by rw [hb])) hnotc
        · exact hb
      constructor
      · exact Nat.le_trans (List.Sublist.length_le (removeActive_sublist _ _)) inv.activeBound
      · exact List.Nodup.sublist (List.Sublist.map _ (removeActive_sublist _ _)) inv.activeNodup
      · exact mapTask_nodup (fun t => rfl) inv.storeNodup
      · refine forall_mem_mapTask inv.retryBound ?_
        intro t ht _
        have := inv.retryBound t ht
        simpa [applyUpdate, cancelledUpdate] using this
      · intro e2 he2
        obtain ⟨he2mem, hne⟩ := mem_removeActive he2
        obtain ⟨u, hu, huid, hur, hum, hus⟩ := inv.execStore e2 he2mem
        exact ⟨u, mem_mapTask_of_ne hu (by rw [huid]; exact hne), huid, hur, hum, hus⟩
      · refine forall_mem_mapTask inv.resultIff ?_
        intro t ht hid
        have ht0 : t = td := store_id_unique inv.storeNodup ht htdmem (by rw [hid, htdid])
        subst ht0
        simp [applyUpdate, cancelledUpdate, hresFalse]
      · refine forall_mem_mapTask inv.errorSet ?_
        intro t ht _ _
        simp [applyUpdate, cancelledUpdate]

theorem inv_sweep {s : Sys} (inv : Inv s) (now : Nat) :
    Inv { s with store := cleanupCompletedTasks s.store now } := by
  constructor
  · exact inv.activeBound
  · exact inv.activeNodup
  · exact List.Nodup.sublist (List.Sublist.map _ (List.filter_sublist _)) inv.storeNodup
  · intro t ht
    exact inv.retryBound t (List.mem_of_mem_filter ht)
  · intro e he
    obtain ⟨u, hu, huid, hur, hum, hus⟩ := inv.execStore e he
    have hkeep : sweepKeep (retentionCutoff now) u = true := by
      cases hb : e.started
      · rw [hb] at hus
        simp at hus
        simp [sweepKeep, isTerminal, hus]
      · rw [hb] at hus
        simp at hus
        simp [sweepKeep, isTerminal, hus]
    exact ⟨u, List.mem_filter.mpr ⟨hu, hkeep⟩, huid, hur, hum, hus⟩
  · intro t ht
    exact inv.resultIff t (List.mem_of_mem_filter ht)
  · intro t ht
    exact inv.errorSet t (List.mem_of_mem_filter ht)

/-- Every state reachable by the single-dispatcher scheduler satisfies the
inductive invariant. -/
theorem reachable_inv {s : Sys} (h : Reachable s) : Inv s := by
  induction h with
  | init =>
    refine ⟨?_, ?_, ?_, ?_, ?_, ?_, ?_⟩ <;> simp [initSys, activeIds, maxConcurrentTasks]
  | step hr hstep ih =>
    cases hstep with
    | create t hst hrc hpr hres herr hsa hca hfresh =>
      exact inv_create ih hst hrc hres herr hfresh
    | poll => exact inv_poll ih
    | startRun e now he hs => exact inv_startRun ih he hs
    | progressUpd e p now he hs => exact inv_progress ih he hs
    | finishSuccess e r now he hs => exact inv_finishSuccess ih he hs
    | finishFailure e msg now he hs => exact inv_finishFailure ih he hs
    | cancel tid uid now => exact inv_cancel ih tid uid now
    | sweep now => exact inv_sweep ih now

theorem reachable_sysA1 : Reachable sysA1 :=
  Reachable.step Reachable.init
    (Step.create initSys taskA rfl rfl rfl rfl rfl rfl rfl (by intro u hu; simp [initSys] at hu))

theorem reachable_sysA2 : Reachable sysA2 :=
  Reachable.step reachable_sysA1 (Step.poll sysA1)

theorem reachable_sysA3 : Reachable sysA3 :=
  Reachable.step reachable_sysA2 (Step.startRun sysA2 exA 200 (by decide) rfl)

theorem reachable_sysA4 : Reachable sysA4 :=
  Reachable.step reachable_sysA3
    (Step.finishFailure sysA3 exA2 "Transient IO error" 300 (by decide) rfl)

theorem reachable_sysC1 : Reachable sysC1 :=
  Reachable.step Reachable.init
    (Step.create initSys taskC rfl rfl rfl rfl rfl rfl rfl (by intro u hu; simp [initSys] at hu))

theorem reachable_sysC2 : Reachable sysC2 :=
  Reachable.step reachable_sysC1 (Step.poll sysC1)

theorem reachable2_sysB1 : Reachable2 sysB1 :=
  Reachable2.step Reachable2.init
    (Step2.create initSys2 taskA rfl (by intro u hu; simp [initSys2] at hu))

theorem reachable2_sysB2 : Reachable2 sysB2 :=
  Reachable2.step reachable2_sysB1 (Step2.poll1 sysB1)

theorem reachable2_sysB3 : Reachable2 sysB3 :=
  Reachable2.step reachable2_sysB2 (Step2.poll2 sysB2)

theorem reachable2_sysB4 : Reachable2 sysB4 :=
  Reachable2.step reachable2_sysB3 (Step2.startRun1 sysB3 exA 200 (by decide) rfl)

theorem reachable2_sysB5 : Reachable2 sysB5 :=
  Reachable2.step reachable2_sysB4 (Step2.startRun2 sysB4 exA 210 (by decide) rfl)

/-- C1 (counterexample): the claim of an atomic PENDING-to-RUNNING claim
operation is false for this code. Selection (`_process_pending_tasks`) and
the RUNNING write (`_execute_task`) are separate store operations, so two
dispatcher instances sharing the `tasks` table can both select the same
PENDING task and both run it: in the reachable two-instance state `sysB5`,
task 1 is tracked in flight by both instances, and both executors have
performed their RUNNING write. -/
theorem c1_counterexample :
    Reachable2 sysB5 ∧
    activeHasId sysB5.d1 taskA.id = true ∧
    activeHasId sysB5.d2 taskA.id = true ∧
    (∀ e ∈ sysB5.d1, e.started = true) ∧
    (∀ e ∈ sysB5.d2, e.started = true) :=
  ⟨reachable2_sysB5, by decide, by decide, by decide, by decide⟩

/-- C1 (amended): the claim-and-run of a task is not one atomic store step;
what the code guarantees is only local: within a single Dispatcher instance
the in-memory `active_tasks` table never tracks the same task id twice, so
one instance never starts two concurrent executors for one task. Across
instances no such protection exists (see the counterexample). -/
theorem c1_single_instance_claim {s : Sys} (h : Reachable s) :
    (activeIds s.active).Nodup :=
  (reachable_inv h).activeNodup

/-- C1 witness: the single-instance guarantee evaluated on the concrete
reachable state `sysA2`, where task 1 is in flight exactly once. -/
theorem c1_witness : (activeIds sysA2.active).Nodup :=
  c1_single_instance_claim reachable_sysA2

/-- C2: in every reachable state of one dispatcher instance, the number of
in-flight executors never exceeds `max_concurrent_tasks`, and no task id is
ever tracked in flight twice (the dispatcher never starts a second executor
for an id already in `active_tasks`). -/
theorem c2_concurrency_bound {s : Sys} (h : Reachable s) :
    s.active.length ≤ maxConcurrentTasks ∧ (activeIds s.active).Nodup :=
  ⟨(reachable_inv h).activeBound, (reachable_inv h).activeNodup⟩

/-- C2 witness: the bound evaluated on the concrete reachable state `sysA2`. -/
theorem c2_witness :
    sysA2.active.length ≤ maxConcurrentTasks ∧ (activeIds sysA2.active).Nodup :=
  c2_concurrency_bound reachable_sysA2

/-- C3 (counterexample): the retry requeue does not reset `progress`. The
update dict of the retry branch contains only `retry_count` and
`error_message`, so a task that failed at 60 percent progress re-enters
PENDING still carrying `progress = 60`, not a reset value. -/
theorem c3_counterexample :
    ∃ t ∈ finishFailureStore [taskBrun] taskBrun "Transient IO error" 300,
      t.status = TaskStatus.pending ∧ t.retry_count = 1 ∧
      t.progress = 60 ∧ t.progress ≠ 0 := by decide

/-- C3 (amended): on a handler failure with `retry_count < max_retries` the
executor increments `retry_count` by one, transitions the task back to
PENDING (not terminal FAILED) and records the informational message noting
the retry attempt; `progress` is not reset and keeps its previous value. -/
theorem c3_retry_requeue {store : List Task} {snap : Task} (msg : String) (now : Nat)
    (hlt : snap.retry_count < snap.max_retries) :
    ∀ t ∈ store, t.id = snap.id →
      ∃ t2 ∈ finishFailureStore store snap msg now,
        t2.id = t.id ∧ t2.status = TaskStatus.pending ∧
        t2.retry_count = snap.retry_count + 1 ∧
        t2.error_message = some (retryMessage (snap.retry_count + 1) snap.max_retries msg) ∧
        t2.progress = t.progress := by
  intro t ht hid
  refine ⟨applyUpdate t TaskStatus.pending (retryUpdate snap.retry_count snap.max_retries msg) now,
    ?_, ?_⟩
  · unfold finishFailureStore
    rw [if_pos hlt]
    exact mem_mapTask_of_eq ht hid
  · simp [applyUpdate, retryUpdate]

/-- C3 witness: the amended retry transition evaluated on the concrete
running row `taskBrun`. -/
theorem c3_witness :
    ∃ t2 ∈ finishFailureStore [taskBrun] taskBrun "IO timeout" 300,
      t2.id = taskBrun.id ∧ t2.status = TaskStatus.pending ∧
      t2.retry_count = taskBrun.retry_count + 1 ∧
      t2.error_message =
        some (retryMessage (taskBrun.retry_count + 1) taskBrun.max_retries "IO timeout") ∧
      t2.progress = taskBrun.progress :=
  c3_retry_requeue "IO timeout" 300 (by decide) taskBrun (by decide) rfl

/-- C4: in every reachable state every stored task satisfies
`retry_count <= max_retries`, and once an executor's snapshot has
`retry_count = max_retries` a handler failure writes terminal FAILED with an
error message and `completed_at` — never another requeue to PENDING. -/
theorem c4_retry_budget {s : Sys} (h : Reachable s) :
    (∀ t ∈ s.store, t.retry_count ≤ t.max_retries) ∧
    (∀ e ∈ s.active, e.snap.retry_count = e.snap.max_retries →
      ∀ (msg : String) (now : Nat),
        ∀ t2 ∈ finishFailureStore s.store e.snap msg now, t2.id = e.snap.id →
          t2.status = TaskStatus.failed ∧ t2.error_message.isSome ∧
          t2.completed_at.isSome ∧ t2.status ≠ TaskStatus.pending) := by
  refine ⟨(reachable_inv h).retryBound, ?_⟩
  intro e _ heq msg now t2 ht2 hid
  unfold finishFailureStore at ht2
  rw [if_neg (by omega)] at ht2
  rcases mem_mapTask_elim ht2 with ⟨u, _, _, hteq⟩ | ⟨_, hne⟩
  · subst hteq
    refine ⟨rfl, ?_, ?_, ?_⟩ <;> simp [applyUpdate, failedUpdate]
  · exact absurd hid hne

/-- C4 witness: evaluated on the reachable state `sysC2` in which `taskC`
(created with `max_retries = 0`) is in flight; its failure lands on terminal
FAILED with error and completion timestamps set. -/
theorem c4_witness :
    taskCfailed.status = TaskStatus.failed ∧ taskCfailed.error_message.isSome ∧
    taskCfailed.completed_at.isSome ∧ taskCfailed.status ≠ TaskStatus.pending :=
  (c4_retry_budget reachable_sysC2).2 exC (by decide) rfl "Disk failure" 300
    taskCfailed (by decide) (by decide)

/-- C5 (counterexample): a permission-denied style failure with retry budget
remaining is requeued to PENDING, not taken straight to terminal FAILED: the
`except Exception` branch of `_execute_task` never inspects the failure. -/
theorem c5_counterexample :
    ∃ t ∈ finishFailureStore [taskBrun] taskBrun "Permission denied" 300,
      t.status = TaskStatus.pending ∧ t.status ≠ TaskStatus.failed := by decide

/-- C5 (amended): the executor applies one uniform rule to every handler
failure; there is no retryable/non-retryable classification. Whatever the
failure message, while `retry_count < max_retries` the task is requeued to
PENDING (the branch taken does not depend on the message), and terminal
FAILED is reached only when the retry budget is exhausted. -/
theorem c5_no_failure_classification {store : List Task} {snap : Task}
    (msg : String) (now : Nat)
    (hlt : snap.retry_count < snap.max_retries) :
    (finishFailureStore store snap msg now =
      updateTaskStatus store snap.id TaskStatus.pending
        (retryUpdate snap.retry_count snap.max_retries msg) now) ∧
    (∀ t ∈ store, t.id = snap.id →
      ∃ t2 ∈ finishFailureStore store snap msg now,
        t2.id = t.id ∧ t2.status = TaskStatus.pending ∧ t2.status ≠ TaskStatus.failed) := by
  constructor
  · unfold finishFailureStore
    rw [if_pos hlt]
  · intro t ht hid
    refine ⟨applyUpdate t TaskStatus.pending
      (retryUpdate snap.retry_count snap.max_retries msg) now, ?_, rfl, rfl,
      by simp [applyUpdate, retryUpdate]⟩
    unfold finishFailureStore
    rw [if_pos hlt]
    exact mem_mapTask_of_eq ht hid

/-- C5 witness: the uniform retry rule evaluated on the concrete running row
`taskBrun` with a malformed-parameters failure message. -/
theorem c5_witness :
    ∃ t2 ∈ finishFailureStore [taskBrun] taskBrun "Malformed parameters" 300,
      t2.id = taskBrun.id ∧ t2.status = TaskStatus.pending ∧
      t2.status ≠ TaskStatus.failed :=
  (c5_no_failure_classification "Malformed parameters" 300 (by decide)).2
    taskBrun (by decide) rfl

/-- C6 (counterexample): `error_message` set does not imply a FAILED or
CANCELLED status: in the reachable state `sysA4` the requeued task is PENDING
yet carries the informational retry `error_message`. -/
theorem c6_counterexample :
    Reachable sysA4 ∧
    (∃ t ∈ sysA4.store, t.status = TaskStatus.pending ∧ t.error_message.isSome) :=
  ⟨reachable_sysA4, by decide⟩

/-- C6 (amended): in every reachable state, `result` is set if and only if
the status is COMPLETED, and FAILED or CANCELLED status implies
`error_message` is set; but the converse of the error clause fails, since a
PENDING task awaiting retry also carries an `error_message`. -/
theorem c6_result_error_fields {s : Sys} (h : Reachable s) :
    (∀ t ∈ s.store, (t.result.isSome ↔ t.status = TaskStatus.completed)) ∧
    (∀ t ∈ s.store,
      (t.status = TaskStatus.failed ∨ t.status = TaskStatus.cancelled) →
        t.error_message.isSome) :=
  ⟨(reachable_inv h).resultIff, (reachable_inv h).errorSet⟩

/-- C6 witness: the field discipline evaluated on the concrete requeued row
of the reachable state `sysA4`. -/
theorem c6_witness :
    taskAretry.result.isSome ↔ taskAretry.status = TaskStatus.completed :=
  (c6_result_error_fields reachable_sysA4).1 taskAretry (by decide)

/-- C7: `cancel_task` returns false and leaves the state untouched when no
row matches the id and owner, or when the matched row is terminal; for an
owned PENDING or RUNNING row it returns true and the row is transitioned to
CANCELLED with `error_message` and `completed_at` set. -/
theorem c7_cancel_semantics (s : Sys) (tid uid now : Nat) :
    (s.store.filter (cancelMatch tid uid) = [] → cancelTask s tid uid now = (false, s)) ∧
    (∀ (td : Task) (rest : List Task),
      s.store.filter (cancelMatch tid uid) = td :: rest →
      isTerminal td.status = true → cancelTask s tid uid now = (false, s)) ∧
    (∀ (td : Task) (rest : List Task),
      s.store.filter (cancelMatch tid uid) = td :: rest →
      (td.status = TaskStatus.pending ∨ td.status = TaskStatus.running) →
      (cancelTask s tid uid now).1 = true ∧
      ∀ t ∈ (cancelTask s tid uid now).2.store, t.id = tid →
        t.status = TaskStatus.cancelled ∧ t.error_message.isSome ∧
        t.completed_at.isSome) := by
  refine ⟨fun h => cancelTask_eq_of_none h,
    fun td rest h ht => cancelTask_eq_of_terminal h ht, ?_⟩
  intro td rest h hpr
  have ht : isTerminal td.status = false := by
    rcases hpr with h2 | h2 <;> rw [h2] <;> rfl
  rw [cancelTask_eq_of_live h ht]
  refine ⟨rfl, ?_⟩
  intro t htmem hid
  rcases mem_mapTask_elim htmem with ⟨u, _, _, hteq⟩ | ⟨_, hne⟩
  · subst hteq
    exact ⟨rfl, by simp [applyUpdate, cancelledUpdate], by simp [applyUpdate, cancelledUpdate]⟩
  · exact absurd hid hne

/-- C7 witness: cancelling the owned RUNNING row `taskBrun` succeeds and
writes CANCELLED with error and completion fields. -/
theorem c7_witness :
    (cancelTask sysD 2 10 400).1 = true ∧
    taskBcancelled.status = TaskStatus.cancelled ∧
    taskBcancelled.error_message.isSome ∧ taskBcancelled.completed_at.isSome := by
  have h := (c7_cancel_semantics sysD 2 10 400).2.2 taskBrun [] (by decide) (Or.inr rfl)
  exact ⟨h.1, h.2 taskBcancelled (by decide) (by decide)⟩

/-- C8: every row selected by a dispatcher poll is a PENDING row of the
snapshot, and the selection list is pairwise ordered by `taskOrder`: strictly
higher `priority` first, and among equal priorities the smaller (older)
`created_at` first. The selection is a pure function of the snapshot, hence
deterministic. -/
theorem c8_selection_order (store : List Task) (limit : Nat) :
    (∀ t ∈ selectPendingTasks store limit, t ∈ store ∧ t.status = TaskStatus.pending) ∧
    (selectPendingTasks store limit).Pairwise taskOrder := by
  refine ⟨fun t ht => mem_selectPendingTasks ht, ?_⟩
  unfold selectPendingTasks
  exact List.Pairwise.sublist (List.take_sublist _ _)
    (List.sorted_insertionSort taskOrder _)

/-- C8 witness: on the snapshot holding `taskLo` (priority 2, older) and
`taskHi` (priority 9), the selection contains `taskHi` as a pending row of
the snapshot and is sorted. -/
theorem c8_witness :
    (taskHi ∈ [taskLo, taskHi] ∧ taskHi.status = TaskStatus.pending) ∧
    (selectPendingTasks [taskLo, taskHi] maxConcurrentTasks).Pairwise taskOrder := by
  have h := c8_selection_order [taskLo, taskHi] maxConcurrentTasks
  exact ⟨h.1 taskHi (by decide), h.2⟩

/-- C9: one sweep run keeps a row exactly when it is not (terminal with a
`completed_at` older than the 7-day cutoff); it never deletes a PENDING or
RUNNING row; and sweeping twice with the same clock equals sweeping once. -/
theorem c9_retention_sweep (store : List Task) (now : Nat) :
    (∀ t ∈ store, (t ∈ cleanupCompletedTasks store now ↔
      ¬(isTerminal t.status = true ∧ completedBefore t (retentionCutoff now) = true))) ∧
    (∀ t ∈ store, (t.status = TaskStatus.pending ∨ t.status = TaskStatus.running) →
      t ∈ cleanupCompletedTasks store now) ∧
    cleanupCompletedTasks (cleanupCompletedTasks store now) now =
      cleanupCompletedTasks store now := by
  refine ⟨?_, ?_, ?_⟩
  · intro t ht
    have hkeep : sweepKeep (retentionCutoff now) t = true ↔
        ¬(isTerminal t.status = true ∧ completedBefore t (retentionCutoff now) = true) := by
      unfold sweepKeep
      cases isTerminal t.status <;> cases completedBefore t (retentionCutoff now) <;> simp
    unfold cleanupCompletedTasks
    rw [List.mem_filter]
    simp [ht, hkeep]
  · intro t ht hpr
    refine List.mem_filter.mpr ⟨ht, ?_⟩
    unfold sweepKeep
    rcases hpr with h | h <;> rw [h] <;> rfl
  · unfold cleanupCompletedTasks
    rw [List.filter_filter]
    have : (fun a => sweepKeep (retentionCutoff now) a && sweepKeep (retentionCutoff now) a) =
        fun a => sweepKeep (retentionCutoff now) a := by
      funext t
      cases sweepKeep (retentionCutoff now) t <;> rfl
    rw [this]

/-- C9 witness: with the clock at 1000000, the old completed row `taskOld` is
swept while the pending row `taskA` survives, and a second sweep changes
nothing. -/
theorem c9_witness :
    taskA ∈ cleanupCompletedTasks [taskOld, taskA] 1000000 ∧
    cleanupCompletedTasks (cleanupCompletedTasks [taskOld, taskA] 1000000) 1000000 =
      cleanupCompletedTasks [taskOld, taskA] 1000000 := by
  have h := c9_retention_sweep [taskOld, taskA] 1000000
  exact ⟨h.2.1 taskA (by decide) (Or.inl rfl), h.2.2⟩

/-- C10: the stored task type of `create_task` is a function of the command
string alone — replacing the caller-supplied `type` field changes nothing —
and that function agrees with the claim's rule: the four slash-command
prefixes, the backup and analyze substrings, and ANALYSIS as the default for
every unmatched command (rather than a rejection). -/
theorem c10_create_type_from_command :
    (∀ (req : TaskCreate) (ty : TaskType),
      createTaskStoredType { req with type := ty } = createTaskStoredType req) ∧
    (∀ req : TaskCreate, createTaskStoredType req = parseCommandTaskType req.command) ∧
    (∀ command : String, parseCommandTaskType command = claimStoredType command) := by
  refine ⟨fun req ty => rfl, fun req => rfl, ?_⟩
  intro command
  unfold parseCommandTaskType claimStoredType parseTypeOfChars claimTypeOfChars
  split_ifs <;> rfl

end Scheduler
